import Mathlib

/-!
Verification of the Shared Compiled-code Archive (SCA) core,
`src/hotspot/share/code/SCArchive.cpp` (class `SCAFile`, entry catalog
`SCAEntry`, address table `SCATable`), against its natural-language
specification.

The archive file is modelled as a list of bytes (`List Nat`) with an explicit
write cursor; write operations mirror `SCAFile::write_bytes` (which can fail
at the OS level; failures are driven by an explicit oracle `osFails`),
`SCAFile::align_write`, `SCAFile::store_stub`, `SCAFile::store_nmethod` and
`SCAFile::finish_write`.  The read side mirrors the `SCAFile` constructor in
read mode, `SCAFile::find_entry` and `SCAFile::load_stub`.

The raw `SCAHeader` and `SCAEntry` structs are written with
`write_bytes(&struct, sizeof(struct))` and read back by `read_bytes` into the
same struct type, i.e. a memcpy round-trip whose byte layout is
compiler-defined.  The model therefore carries the structured header and the
structured entry list alongside the byte file (the serialized blocks appear
in the byte file as opaque filler of the right length), instead of inventing
a byte layout for compiler-padded structs.
-/

namespace SCArchive

/-! ### Byte-file primitives -/

/-- The `len` bytes of `f` starting at absolute offset `off`
(what `read_bytes` returns after `seek_to_position off`). -/
def sliceAt (f : List Nat) (off len : Nat) : List Nat :=
  (f.drop off).take len

/-- Overwrite/extend `f` at offset `off` with the bytes `bs`
(the effect of `::write` at file position `off`). -/
def writeAt (f : List Nat) (off : Nat) (bs : List Nat) : List Nat :=
  f.take off ++ bs ++ f.drop (off + bs.length)

/-! ### Data model: `SCAEntry`, `SCAHeader` (SCArchive.hpp) -/

/-- `SCAEntry::Kind`: `None = 0, Stub = 1, Blob = 2, Code = 3`. -/
inductive Kind where
  | NoneK
  | Stub
  | Blob
  | Code
deriving DecidableEq, Repr, BEq

instance : LawfulBEq Kind where
  eq_of_beq := by
    intro a b h
    cases a <;> cases b <;> first | rfl | exact absurd h (by decide)
  rfl := by
    intro a
    cases a <;> rfl

/-- One record of the entry catalog (`class SCAEntry`): offsets and sizes of
the artifact's blocks plus kind, id, insertion index, decompile count and the
sticky not-entrant bit. -/
structure SCAEntry where
  offset : Nat
  nameOffset : Nat
  nameSize : Nat
  codeOffset : Nat
  codeSize : Nat
  relocOffset : Nat
  relocSize : Nat
  kind : Kind
  id : Nat
  idx : Nat
  decompile : Nat
  notEntrant : Bool
deriving DecidableEq, Repr

/-- `SCAEntry::set_not_entrant()`. -/
def SCAEntry.setNotEntrant (e : SCAEntry) : SCAEntry :=
  { e with notEntrant := true }

/-- `class SCAHeader`: version, entry count, total size, offsets of the
entries table and the string table. -/
structure SCAHeader where
  version : Nat
  entriesCount : Nat
  archiveSize : Nat
  entriesOffset : Nat
  stringsCount : Nat
  stringsOffset : Nat
deriving DecidableEq, Repr

/-- `sizeof(SCAHeader)`: six 32-bit words. -/
def headerSize : Nat := 24

/-- Stand-in for `sizeof(SCAEntry)` (the exact padded size is irrelevant:
the serialized entries block is only ever read back whole by memcpy). -/
def entrySize : Nat := 48

/-! ### `SCAFile::find_entry` and `SCAFile::invalidate` -/

/-- The acceptance test of the `find_entry` scan loop (SCArchive.cpp:392-401):
kind and id must match, and a `Code` entry is skipped when it is not entrant
or its decompile count differs from the requested one. -/
def entryMatches (kind : Kind) (id decomp : Nat) (e : SCAEntry) : Bool :=
  e.kind == kind && e.id == id &&
    !(kind == Kind.Code && (e.notEntrant || e.decompile != decomp))

/-- `SCAFile::find_entry(kind, id, decomp)`: linear scan returning the first
matching entry (SCArchive.cpp:375-403).  The catalog list stands for the
`_entries` array. -/
def findEntry (entries : List SCAEntry) (kind : Kind) (id decomp : Nat) : Option SCAEntry :=
  entries.find? (entryMatches kind id decomp)

/-- `SCAFile::invalidate(entry)` (SCArchive.cpp:405-422): set the
not-entrant bit; a no-op when it is already set. -/
def invalidate (e : SCAEntry) : SCAEntry :=
  if e.notEntrant then e else e.setNotEntrant

/-! ### Write-mode archive state (`SCAFile`, store direction) -/

/-- State of an archive opened for write: the file bytes, the write cursor
`_file_offset`, the in-memory entry list `_write_entries`, the running entry
counter `SCAHeader::_entries_count` (advanced by `next_idx()`), the writer's
`VM_Version::jvm_version()`, the global C-string pool of the `SCATable`,
the `_failed` / `_lookup_failed` bits, and an oracle `osFails` giving the
outcome of each future OS-level `write` call (`true` = that write fails;
an exhausted oracle means writes succeed). -/
structure WState where
  file : List Nat
  offset : Nat
  entries : List SCAEntry
  count : Nat
  version : Nat
  cstrings : List (List Nat)
  failed : Bool
  lookupFailed : Bool
  osFails : List Bool
deriving DecidableEq, Repr

/-- `SCAFile::for_write()`: open, write direction and not failed.  The fd and
direction are fixed in this model, so only `_failed` remains. -/
def forWrite (s : WState) : Bool := !s.failed

/-- `SCAFile::write_bytes(buffer, nbytes)` (SCArchive.cpp:351-365): nothing
happens for 0 bytes; an OS-level failure sets `_failed` and returns 0;
otherwise the bytes land at the cursor and the cursor advances. -/
def writeBytes (s : WState) (bs : List Nat) : WState × Nat :=
  if bs.length = 0 then (s, 0)
  else
    let fail := s.osFails.headD false
    let s1 := { s with osFails := s.osFails.tail }
    if fail then ({ s1 with failed := true }, 0)
    else ({ s1 with file := writeAt s1.file s1.offset bs,
                    offset := s1.offset + bs.length }, bs.length)

/-- `SCAFile::align_write()` (SCArchive.cpp:316-331).  Note the source
computes `padding = sizeof(uint) - (_file_offset & 3)`, which is in `1..4`,
and then tests `padding == 0`: the test can never fire, so an already aligned
cursor still gets `sizeof(uint)` padding bytes. -/
def alignWrite (s : WState) : WState × Bool :=
  let padding := 4 - s.offset % 4
  if padding = 0 then (s, true)
  else
    let r := writeBytes s (List.replicate padding 0)
    (r.1, r.2 == padding)

/-- Arguments of one `store_stub` call: intrinsic id, name (C-string bytes,
terminating NUL not included) and the generated code bytes `[start, pc)`. -/
structure StubReq where
  id : Nat
  name : List Nat
  code : List Nat
deriving DecidableEq, Repr

/-- `SCAFile::store_stub(cgen, id, name, start)` (SCArchive.cpp:503-536):
align, remember the entry position, write the NUL-terminated name, align,
write the code bytes, append a `Stub` entry. -/
def storeStub (s0 : WState) (r : StubReq) : WState × Bool :=
  if !forWrite s0 then (s0, false)
  else
    let s := { s0 with lookupFailed := false }
    let a1 := alignWrite s
    if !a1.2 then (a1.1, false)
    else
      let s := a1.1
      let entryPosition := s.offset
      let nameSize := r.name.length + 1
      let w1 := writeBytes s (r.name ++ [0])
      if w1.2 ≠ nameSize then (w1.1, false)
      else
        let a2 := alignWrite w1.1
        if !a2.2 then (a2.1, false)
        else
          let s := a2.1
          let codeOffset := s.offset - entryPosition
          let w2 := writeBytes s r.code
          if w2.2 ≠ r.code.length then (w2.1, false)
          else
            let s := w2.1
            let e : SCAEntry :=
              { offset := entryPosition, nameOffset := 0, nameSize := nameSize,
                codeOffset := codeOffset, codeSize := r.code.length,
                relocOffset := 0, relocSize := 0,
                kind := Kind.Stub, id := r.id, idx := s.count,
                decompile := 0, notEntrant := false }
            ({ s with entries := s.entries ++ [e], count := s.count + 1 }, true)

/-- A sequence of `store_stub` calls. -/
def storeStubs (s : WState) (rs : List StubReq) : WState :=
  rs.foldl (fun s r => (storeStub s r).1) s

/-- The `SCAFile` constructor in write mode (SCArchive.cpp:218-227): write an
initial header at offset 0. -/
def initW (version : Nat) (osFails : List Bool) : WState :=
  let s : WState :=
    { file := [], offset := 0, entries := [], count := 0, version := version,
      cstrings := [], failed := false, lookupFailed := false, osFails := osFails }
  (writeBytes s (List.replicate headerSize 0)).1

/-! ### String pool and `SCAFile::finish_write` -/

/-- 32-bit little-endian bytes of a value written with
`write_bytes(&x, sizeof(int))`. -/
def enc4 (n : Nat) : List Nat :=
  [n % 256, n / 256 % 256, n / 65536 % 256, n / 16777216 % 256]

/-- Write a list of buffers in order, stopping at the first short write
(the common `n != size` check after each `write_bytes`). -/
def writeEach (s : WState) : List (List Nat) → WState × Bool
  | [] => (s, true)
  | bs :: rest =>
    let w := writeBytes s bs
    if w.2 ≠ bs.length then (w.1, false) else writeEach w.1 rest

/-- `SCAFile::store_strings()` (SCArchive.cpp:2359-2378): when the pool is
non-empty, write all the `strlen+1` sizes, then all the NUL-terminated
strings; return the pool size, or -1 on a short write. -/
def storeStrings (s : WState) : WState × Int :=
  if s.cstrings.length > 0 then
    let w1 := writeEach s (s.cstrings.map (fun cs => enc4 (cs.length + 1)))
    if !w1.2 then (w1.1, -1)
    else
      let w2 := writeEach w1.1 (s.cstrings.map (fun cs => cs ++ [0]))
      if !w2.2 then (w2.1, -1) else (w2.1, Int.ofNat s.cstrings.length)
  else (s, 0)

/-- A finalized archive file: the byte file plus the structured header and
entry catalog that the raw header/entries blocks memcpy-round-trip into. -/
structure FinalImage where
  file : List Nat
  header : SCAHeader
  entries : List SCAEntry
deriving DecidableEq, Repr

/-- `SCAFile::finish_write()` (SCArchive.cpp:424-458), as invoked by the
destructor (only when `for_write()`, i.e. not failed): append the string
pool, append the raw `SCAEntry` array (opaque filler bytes in the model; the
structured list rides in the image), then rewrite the header at offset 0
with the final counts and offsets. -/
def finishWrite (s0 : WState) : Option FinalImage :=
  if !forWrite s0 then none
  else
    let version := s0.version
    let stringsOffset := s0.offset
    let p := storeStrings s0
    if p.2 < 0 then none
    else
      let s := p.1
      let count := s.entries.length
      let step :=
        if count > 0 then
          let eo := s.offset
          let w := writeBytes s (List.replicate (count * entrySize) 0)
          if w.2 ≠ count * entrySize then none else some (w.1, eo)
        else some (s, 0)
      match step with
      | none => none
      | some (s, entriesOffset) =>
        let hdr : SCAHeader :=
          { version := version, entriesCount := count, archiveSize := s.offset,
            entriesOffset := entriesOffset, stringsCount := p.2.toNat,
            stringsOffset := stringsOffset }
        let s := { s with offset := 0 }
        let w := writeBytes s (List.replicate headerSize 0)
        if w.2 ≠ headerSize then none
        else some { file := w.1.file, header := hdr, entries := s.entries }

/-! ### Read-mode archive state (`SCAFile`, load direction) -/

/-- State of an archive opened for read: the whole byte file, the parsed
header, the entry catalog (the structured view of the raw `SCAEntry` block
that `find_entry` reads back), the read cursor and the `_failed` bit. -/
structure RState where
  file : List Nat
  header : SCAHeader
  catalog : List SCAEntry
  offset : Nat
  failed : Bool
deriving DecidableEq, Repr

/-- The bounds conditions under which `SCAFile::load_strings()`
(SCArchive.cpp:2324-2357) succeeds: nothing to do for an empty pool,
otherwise the sizes array and the string bytes must lie inside the file. -/
def loadStringsOk (img : FinalImage) : Bool :=
  img.header.stringsCount == 0 ||
    (decide (img.header.stringsOffset + img.header.stringsCount * 4 ≤ img.header.entriesOffset) &&
     decide (img.header.entriesOffset ≤ img.file.length))

/-- The `SCAFile` constructor in read mode (SCArchive.cpp:197-217) followed
by `SCArchive::open_for_read`.  It reads the header and the string pool.
`jvmVersion` is the loading runtime's `VM_Version::jvm_version()`: the source
only compares it to the stored version in a debug-build `assert` (line 206),
so in a product build the value never influences the result. -/
def openForRead (jvmVersion : Nat) (img : FinalImage) : RState :=
  if headerSize ≤ img.file.length ∧ loadStringsOk img then
    { file := img.file, header := img.header, catalog := img.entries,
      offset := headerSize, failed := false }
  else
    { file := img.file, header := img.header, catalog := img.entries,
      offset := 0, failed := true }

/-- `seek_to_position(off)` followed by `read_bytes(buf, len)`: in bounds the
slice is returned and the cursor advances; a short read sets `_failed`. -/
def readBytesR (s : RState) (off len : Nat) : RState × Option (List Nat) :=
  if off + len ≤ s.file.length then
    ({ s with offset := off + len }, some (sliceAt s.file off len))
  else ({ s with failed := true }, none)

/-- `strncmp(a, b, n) == 0` on NUL-terminated byte lists: compare up to `n`
bytes, stopping early at a difference or at a NUL. -/
def strncmpEq : List Nat → List Nat → Nat → Bool
  | _, _, 0 => true
  | a, b, n + 1 =>
    if a.headD 0 ≠ b.headD 0 then false
    else if a.headD 0 = 0 then true
    else strncmpEq a.tail b.tail n

/-- `SCAFile::load_stub(cgen, id, name, start)` (SCArchive.cpp:460-501).
Returns the final state, the success bit, and the bytes copied into the
caller's buffer (`none` when the buffer is untouched).  The leading
`open_for_read()` returns null for a failed archive. -/
def loadStub (s0 : RState) (id : Nat) (name : List Nat) : RState × Bool × Option (List Nat) :=
  if s0.failed then (s0, false, none)
  else
    match findEntry s0.catalog Kind.Stub id 0 with
    | none => (s0, false, none)
    | some e =>
      let entryPosition := e.offset
      let r1 := readBytesR s0 (entryPosition + e.nameOffset) e.nameSize
      match r1.2 with
      | none => (r1.1, false, none)
      | some savedName =>
        if !(strncmpEq (name ++ [0]) savedName (e.nameSize - 1)) then
          ({ r1.1 with failed := true }, false, none)
        else
          let r2 := readBytesR r1.1 (entryPosition + e.codeOffset) e.codeSize
          match r2.2 with
          | none => (r2.1, false, none)
          | some code => (r2.1, true, some code)

/-! ### `SCAFile::store_nmethod` and its helper writers

The external collaborators (`OopRecorder`, `DebugInformationRecorder`,
`OopMapSet`, `CodeBuffer`) are out of the core's scope; their payloads enter
the model as byte blobs, and oops/metadata as values classified exactly by
the branch of `write_oop` / `write_metadata` that handles them. -/

/-- The `DataKind` tag written in front of every oop / metadata reference.
The numeric values stand in for the enum's (unexported) values. -/
inductive DataKind where
  | Null
  | NoData
  | Klass
  | Method
  | Primitive
  | Str
  | SysLoader
  | PlaLoader
deriving DecidableEq, Repr

def DataKind.tag : DataKind → Nat
  | .Null => 0
  | .NoData => 1
  | .Klass => 2
  | .Method => 3
  | .Primitive => 4
  | .Str => 5
  | .SysLoader => 6
  | .PlaLoader => 7

/-- An oop as classified by the branches of `SCAFile::write_oop`
(SCArchive.cpp:1513-1589).  `unsupportedO` is the final `else` branch: an
embedded object of any other kind, on which the store bails out by setting
`_lookup_failed`. -/
inductive OopVal where
  | nullO
  | noDataO
  | primitiveO (bt : Nat)
  | klassO (name : List Nat)
  | stringO (s : List Nat)
  | sysLoaderO
  | plaLoaderO
  | unsupportedO
deriving DecidableEq, Repr

/-- A metadata value as classified by `SCAFile::write_metadata(Metadata*)`
(SCArchive.cpp:1620-1647).  The unsupported case there is a `fatal`
(process abort), not a failure, so it has no constructor. -/
inductive MetaVal where
  | nullM
  | noDataM
  | klassM (name : List Nat)
  | methodM (holder : List Nat) (name : List Nat) (sig : List Nat)
deriving DecidableEq, Repr

/-- `write_bytes(&x, sizeof(int))` with the usual `n != sizeof(int)` check. -/
def w4 (s : WState) (v : Nat) : WState × Bool :=
  let w := writeBytes s (enc4 v)
  (w.1, w.2 == 4)

/-- `SCAFile::write_klass` (SCArchive.cpp:642-665): kind tag, name length,
NUL-terminated name bytes. -/
def writeKlassData (s : WState) (name : List Nat) : WState × Bool :=
  let t := w4 s (DataKind.tag DataKind.Klass)
  if !t.2 then (t.1, false)
  else
    let l := w4 t.1 name.length
    if !l.2 then (l.1, false)
    else
      let w := writeBytes l.1 (name ++ [0])
      (w.1, w.2 == name.length + 1)

/-- `SCAFile::write_method` (SCArchive.cpp:667-709): kind tag, the three
lengths, then `holder ⌴ name ⌴ signature NUL` as one buffer. -/
def writeMethodData (s : WState) (holder name sig : List Nat) : WState × Bool :=
  let t := w4 s (DataKind.tag DataKind.Method)
  if !t.2 then (t.1, false)
  else
    let l1 := w4 t.1 holder.length
    if !l1.2 then (l1.1, false)
    else
      let l2 := w4 l1.1 name.length
      if !l2.2 then (l2.1, false)
      else
        let l3 := w4 l2.1 sig.length
        if !l3.2 then (l3.1, false)
        else
          let bs := holder ++ [32] ++ name ++ [32] ++ sig ++ [0]
          let w := writeBytes l3.1 bs
          (w.1, w.2 == bs.length)

/-- `SCAFile::write_oop(jobject&)` (SCArchive.cpp:1513-1589). -/
def writeOop (s : WState) : OopVal → WState × Bool
  | OopVal.nullO => w4 s (DataKind.tag DataKind.Null)
  | OopVal.noDataO => w4 s (DataKind.tag DataKind.NoData)
  | OopVal.primitiveO bt =>
    let t := w4 s (DataKind.tag DataKind.Primitive)
    if !t.2 then (t.1, false) else w4 t.1 bt
  | OopVal.klassO nm => writeKlassData s nm
  | OopVal.stringO str =>
    let t := w4 s (DataKind.tag DataKind.Str)
    if !t.2 then (t.1, false)
    else
      let l := w4 t.1 str.length
      if !l.2 then (l.1, false)
      else
        let w := writeBytes l.1 str
        (w.1, w.2 == str.length)
  | OopVal.sysLoaderO => w4 s (DataKind.tag DataKind.SysLoader)
  | OopVal.plaLoaderO => w4 s (DataKind.tag DataKind.PlaLoader)
  | OopVal.unsupportedO => ({ s with lookupFailed := true }, false)

def writeOopList (s : WState) : List OopVal → WState × Bool
  | [] => (s, true)
  | o :: rest =>
    let w := writeOop s o
    if !w.2 then (w.1, false) else writeOopList w.1 rest

/-- `SCAFile::write_oops(OopRecorder*)` (SCArchive.cpp:1591-1618): count,
then each oop. -/
def writeOops (s : WState) (oops : List OopVal) : WState × Bool :=
  let c := w4 s oops.length
  if !c.2 then (c.1, false) else writeOopList c.1 oops

/-- `SCAFile::write_metadata(Metadata*)` (SCArchive.cpp:1620-1647). -/
def writeMetaVal (s : WState) : MetaVal → WState × Bool
  | MetaVal.nullM => w4 s (DataKind.tag DataKind.Null)
  | MetaVal.noDataM => w4 s (DataKind.tag DataKind.NoData)
  | MetaVal.klassM nm => writeKlassData s nm
  | MetaVal.methodM h n sg => writeMethodData s h n sg

def writeMetaList (s : WState) : List MetaVal → WState × Bool
  | [] => (s, true)
  | m :: rest =>
    let w := writeMetaVal s m
    if !w.2 then (w.1, false) else writeMetaList w.1 rest

/-- `SCAFile::write_metadata(OopRecorder*)` (SCArchive.cpp:1649-1677). -/
def writeMetadata (s : WState) (ms : List MetaVal) : WState × Bool :=
  let c := w4 s ms.length
  if !c.2 then (c.1, false) else writeMetaList c.1 ms

/-- `SCAFile::write_debug_info` (SCArchive.cpp:1275-1296): data size, PcDesc
count, stream bytes, PcDesc array bytes. -/
def writeDebugInfo (s : WState) (dataB : List Nat) (pcsLength : Nat) (pcsB : List Nat) :
    WState × Bool :=
  let a := w4 s dataB.length
  if !a.2 then (a.1, false)
  else
    let b := w4 a.1 pcsLength
    if !b.2 then (b.1, false)
    else
      let c := writeBytes b.1 dataB
      if c.2 ≠ dataB.length then (c.1, false)
      else
        let d := writeBytes c.1 pcsB
        (d.1, d.2 == pcsB.length)

/-- One `OopMap` as stored by `write_oop_maps`: the raw struct bytes and the
compressed stream data. -/
structure OopMapItem where
  structBytes : List Nat
  data : List Nat
deriving DecidableEq, Repr

def writeOopMapList (s : WState) : List OopMapItem → WState × Bool
  | [] => (s, true)
  | om :: rest =>
    let a := w4 s om.data.length
    if !a.2 then (a.1, false)
    else
      let b := writeBytes a.1 om.structBytes
      if b.2 ≠ om.structBytes.length then (b.1, false)
      else
        let c := writeBytes b.1 om.data
        if c.2 ≠ om.data.length then (c.1, false) else writeOopMapList c.1 rest

/-- `SCAFile::write_oop_maps` (SCArchive.cpp:1330-1353). -/
def writeOopMaps (s : WState) (maps : List OopMapItem) : WState × Bool :=
  let c := w4 s maps.length
  if !c.2 then (c.1, false) else writeOopMapList c.1 maps

/-- One code section: its original start address and its bytes. -/
structure CodeSec where
  origStart : Nat
  bytes : List Nat
deriving DecidableEq, Repr

/-- `sizeof(address)` bytes of the original section start. -/
def enc8 (n : Nat) : List Nat :=
  enc4 (n % 4294967296) ++ enc4 (n / 4294967296)

/-- `SCAFile::write_code` (SCArchive.cpp:1156-1187): per section the size,
and for a non-empty section the original start address and the code bytes;
returns the accumulated total code size. -/
def writeCodeSections (s : WState) (total : Nat) : List CodeSec → WState × Nat × Bool
  | [] => (s, total, true)
  | cs :: rest =>
    let a := w4 s cs.bytes.length
    if !a.2 then (a.1, total, false)
    else if cs.bytes.length = 0 then writeCodeSections a.1 total rest
    else
      let b := writeBytes a.1 (enc8 cs.origStart)
      if b.2 ≠ 8 then (b.1, total, false)
      else
        let c := writeBytes b.1 cs.bytes
        if c.2 ≠ cs.bytes.length then (c.1, total, false)
        else writeCodeSections c.1 (total + cs.bytes.length) rest

/-- A relocation record as classified by the `switch` in
`SCAFile::write_relocations` (SCArchive.cpp:1045-1105). -/
inductive RelocVal where
  | noneR
  | oopIndexed
  | oopImm (v : OopVal)
  | metadataIndexed
  | metadataImm (m : MetaVal)
  | callR (dest : Int)
  | staticStub
  | externalWord (target : Int)
  | internalWord
  | sectionWord
  | poll
  | pollReturn
  | postCallNop
deriving DecidableEq, Repr

/-- `sizeof(relocInfo)`. -/
def relocInfoSize : Nat := 2

/-- An `int` reinterpreted as the `uint` that lands in `reloc_data[j]`. -/
def u32ofInt (i : Int) : Nat := (i % 4294967296).toNat

/-- The auxiliary `uint` recorded for relocation `j`
(`reloc_data[j]`, SCArchive.cpp:1045-1105).  `tableId` is
`SCATable::id_for_address`, totalized: its `fatal` branches abort the
process and are outside the modelled inputs. -/
def RelocVal.aux (tableId : Int → Int) (j : Nat) : RelocVal → Nat
  | .oopImm _ => j
  | .metadataImm _ => j
  | .callR dest => u32ofInt (tableId dest)
  | .externalWord t => u32ofInt (tableId t)
  | _ => 0

def RelocVal.isImmediate : RelocVal → Bool
  | .oopImm _ => true
  | .metadataImm _ => true
  | _ => false

/-- The second pass of `write_relocations` over a section with immediates
(SCArchive.cpp:1114-1150): store each immediate oop / metadata value. -/
def writeRelocImms (s : WState) : List RelocVal → WState × Bool
  | [] => (s, true)
  | RelocVal.oopImm v :: rest =>
    let w := writeOop s v
    if !w.2 then (w.1, false) else writeRelocImms w.1 rest
  | RelocVal.metadataImm m :: rest =>
    let w := writeMetaVal s m
    if !w.2 then (w.1, false) else writeRelocImms w.1 rest
  | _ :: rest => writeRelocImms s rest

/-- Relocation data of one code section: `_locs_point` offset, the raw
`relocInfo` records (`reloc_count * sizeof(relocInfo)` bytes), and the
typed view of the same records. -/
structure RelocSec where
  locsPointOff : Nat
  rawBytes : List Nat
  items : List RelocVal
deriving DecidableEq, Repr

/-- Per-section body of `SCAFile::write_relocations` (SCArchive.cpp:1016-1151):
count, locs point, raw `relocInfo` bytes, the auxiliary `uint` array, and the
immediates suffix when present. -/
def writeRelocSection (tableId : Int → Int) (s : WState) (sec : RelocSec) : WState × Bool :=
  let count := sec.items.length
  let c := w4 s count
  if !c.2 then (c.1, false)
  else if count = 0 then (c.1, true)
  else
    let lp := w4 c.1 sec.locsPointOff
    if !lp.2 then (lp.1, false)
    else
      let rw := writeBytes lp.1 sec.rawBytes
      if rw.2 ≠ sec.rawBytes.length then (rw.1, false)
      else
        let auxBytes := (sec.items.enum.map (fun p => enc4 (RelocVal.aux tableId p.1 p.2))).flatten
        let ad := writeBytes rw.1 auxBytes
        if ad.2 ≠ auxBytes.length then (ad.1, false)
        else if sec.items.any RelocVal.isImmediate then writeRelocImms ad.1 sec.items
        else (ad.1, true)

def writeRelocSectionList (tableId : Int → Int) (s : WState) : List RelocSec → WState × Bool
  | [] => (s, true)
  | sec :: rest =>
    let w := writeRelocSection tableId s sec
    if !w.2 then (w.1, false) else writeRelocSectionList tableId w.1 rest

/-- `SCAFile::write_relocations` (SCArchive.cpp:1004-1154); the returned
`Nat` is the out-parameter `max_reloc_size`. -/
def writeRelocations (tableId : Int → Int) (s : WState) (secs : List RelocSec) :
    WState × Nat × Bool :=
  let maxCount := secs.foldl (fun m sec => max m sec.items.length) 0
  let w := writeRelocSectionList tableId s secs
  (w.1, maxCount * relocInfoSize, w.2)

/-- `java_lang_String::hash_code` over the method's name+signature bytes:
the 31-based 32-bit string hash used as the `Code` entry id. -/
def javaHash (bs : List Nat) : Nat :=
  bs.foldl (fun h c => (31 * h + c) % 4294967296) 0

/-- The packed flags int of `store_nmethod` (SCArchive.cpp:1970). -/
def packFlags (u w m : Bool) : Nat :=
  (cond u 1 0) * 65536 + (cond w 1 0) * 256 + (cond m 1 0)

/-- Everything one `store_nmethod` call consumes (method identity, gating
bits, and the serializable payloads of the external collaborators). -/
structure NmReq where
  entryBciIsInvocation : Bool
  isC2 : Bool
  name : List Nat
  hasUnsafeAccess : Bool
  hasWideVectors : Bool
  hasMonitors : Bool
  origPcOffset : Int
  frameSize : Nat
  offsetsBytes : List Nat
  oops : List OopVal
  metadata : List MetaVal
  debugData : List Nat
  pcsLength : Nat
  pcsBytes : List Nat
  depsBytes : List Nat
  oopMaps : List OopMapItem
  excLength : Nat
  excBytes : List Nat
  nulChkLength : Nat
  nulChkBytes : List Nat
  sections : List CodeSec
  relocSecs : List RelocSec
  decomp : Nat
deriving DecidableEq, Repr

/-- `enc4` of an `int` value. -/
def enc4i (i : Int) : List Nat := enc4 (u32ofInt i)

/-- `SCAFile::store_nmethod`, flags/orig-pc/frame-size/offsets stage
(SCArchive.cpp:1966-2010): the packed flags int, `_orig_pc_offset`,
the frame size and the `nmethod` offsets block. -/
def writeNmHeader (s : WState) (rq : NmReq) : WState × Bool :=
  let f1 := w4 s (packFlags rq.hasUnsafeAccess rq.hasWideVectors rq.hasMonitors)
  if !f1.2 then (f1.1, false)
  else
    let f2 := writeBytes f1.1 (enc4i rq.origPcOffset)
    if f2.2 ≠ 4 then (f2.1, false)
    else
      let f3 := w4 f2.1 rq.frameSize
      if !f3.2 then (f3.1, false)
      else
        let f4 := writeBytes f3.1 rq.offsetsBytes
        (f4.1, f4.2 == rq.offsetsBytes.length)

/-- `SCAFile::store_nmethod`, metadata/debug-info/dependencies/oop-maps stage
(SCArchive.cpp:2019-2040). -/
def writeNmBody1 (s : WState) (rq : NmReq) : WState × Bool :=
  let me := writeMetadata s rq.metadata
  if !me.2 then (me.1, false)
  else
    let di := writeDebugInfo me.1 rq.debugData rq.pcsLength rq.pcsBytes
    if !di.2 then (di.1, false)
    else
      let d1 := w4 di.1 rq.depsBytes.length
      if !d1.2 then (d1.1, false)
      else
        let d2 := writeBytes d1.1 rq.depsBytes
        if d2.2 ≠ rq.depsBytes.length then (d2.1, false)
        else writeOopMaps d2.1 rq.oopMaps

/-- `SCAFile::store_nmethod`, exception-table/null-check-table/code stage
(SCArchive.cpp:2041-2058); the `Nat` is the accumulated code size out of
`write_code`. -/
def writeNmBody2 (s : WState) (rq : NmReq) : WState × Nat × Bool :=
  let e1 := w4 s rq.excLength
  if !e1.2 then (e1.1, 0, false)
  else
    let e2 := writeBytes e1.1 rq.excBytes
    if e2.2 ≠ rq.excBytes.length then (e2.1, 0, false)
    else
      let n1 := w4 e2.1 rq.nulChkLength
      if !n1.2 then (n1.1, 0, false)
      else
        let n2 := writeBytes n1.1 rq.nulChkBytes
        if n2.2 ≠ rq.nulChkBytes.length then (n2.1, 0, false)
        else writeCodeSections n2.1 0 rq.sections

/-- `SCAFile::store_nmethod` (SCArchive.cpp:1899-2075).  OSR and non-C2
compilations are rejected up front; then name, flags, offsets, oops,
metadata, debug info, dependencies, oop maps, exception/null-check tables,
code sections and relocations are appended in order, and only if everything
succeeded is the `Code` entry recorded.  When `write_oops` or
`write_relocations` fails with `_lookup_failed` (and the archive itself is
not failed) the write cursor is repositioned to the entry start. -/
def storeNmethod (tableId : Int → Int) (s0 : WState) (rq : NmReq) : WState × Bool :=
  if !rq.entryBciIsInvocation then (s0, false)
  else if !rq.isC2 then (s0, false)
  else if !forWrite s0 then (s0, false)
  else
    let a1 := alignWrite { s0 with lookupFailed := false }
    if !a1.2 then (a1.1, false)
    else
      let entryPosition := a1.1.offset
      let nameOffset := a1.1.offset - entryPosition
      let nameSize := rq.name.length + 1
      let hash := javaHash rq.name
      let w1 := writeBytes a1.1 (rq.name ++ [0])
      if w1.2 ≠ nameSize then (w1.1, false)
      else
        let a2 := alignWrite w1.1
        if !a2.2 then (a2.1, false)
        else
          let codeOffset := a2.1.offset - entryPosition
          let hd := writeNmHeader a2.1 rq
          if !hd.2 then (hd.1, false)
          else
            let oo := writeOops hd.1 rq.oops
            if !oo.2 then
              (if oo.1.lookupFailed && !oo.1.failed
               then { oo.1 with offset := entryPosition } else oo.1, false)
            else
              let b1 := writeNmBody1 oo.1 rq
              if !b1.2 then (b1.1, false)
              else
                let b2 := writeNmBody2 b1.1 rq
                if !b2.2.2 then (b2.1, false)
                else
                  let relocOffset := b2.1.offset - entryPosition
                  let wr := writeRelocations tableId b2.1 rq.relocSecs
                  if !wr.2.2 then
                    (if wr.1.lookupFailed && !wr.1.failed
                     then { wr.1 with offset := entryPosition } else wr.1, false)
                  else
                    let s := wr.1
                    let e : SCAEntry :=
                      { offset := entryPosition, nameOffset := nameOffset,
                        nameSize := nameSize, codeOffset := codeOffset,
                        codeSize := b2.2.1, relocOffset := relocOffset,
                        relocSize := wr.2.1, kind := Kind.Code, id := hash,
                        idx := s.count, decompile := rq.decomp,
                        notEntrant := false }
                    ({ s with entries := s.entries ++ [e],
                              count := s.count + 1 }, true)

/-- A concrete `store_nmethod` request whose oops contain an unsupported
oop, so that `write_oops` fails with `_lookup_failed`. -/
def nmReqC6 : NmReq :=
  NmReq.mk true true [97] false false false 0 2 [] [OopVal.unsupportedO] [] [] 0 [] [] [] 0 [] 0 [] [] [] 0

/-! ### `SCATable`: address ↔ id (SCArchive.cpp:2404-2518) -/

/-- `_all_max`: start of the C-string id range. -/
def allMax : Nat := 170

/-- The address table contents: the three address ranges plus the C-string
pool, and the completion flag. -/
structure AddrTable where
  complete : Bool
  extrs : List Int
  stubs : List Int
  blobs : List Int
  cstrings : List Int
deriving DecidableEq, Repr

/-- External collaborators consulted by `id_for_address`:
`StubRoutines::contains`, `CodeCache::find_blob`,
`os::dll_address_to_function_name` (its offset result) and `os::init`. -/
structure Externals where
  stubRoutinesContains : Int → Bool
  codeCacheHasBlob : Int → Bool
  dllFunctionOffset : Int → Option Int
  osInit : Int

/-- `search_address` (SCArchive.cpp:2418-2425): linear scan, -1 on miss. -/
def searchAddress (addr : Int) (tbl : List Int) : Int :=
  match tbl.findIdx? (fun a => a == addr) with
  | some i => Int.ofNat i
  | none => -1

/-- `SCATable::id_for_address` (SCArchive.cpp:2458-2518).  `none` models the
`fatal` calls (process abort).  Note the `-1` sentinel is returned before
the completeness check. -/
def idForAddress (t : AddrTable) (ext : Externals) (addr : Int) : Option Int :=
  if addr = -1 then some (-1)
  else if !t.complete then none
  else
    let cid := searchAddress addr t.cstrings
    if cid ≥ 0 then some (cid + Int.ofNat allMax)
    else if ext.stubRoutinesContains addr then
      let sid := searchAddress addr t.stubs
      if sid < 0 then none else some (sid + Int.ofNat t.extrs.length)
    else if ext.codeCacheHasBlob addr then
      let bid := searchAddress addr t.blobs
      if bid < 0 then none
      else some (bid + Int.ofNat (t.extrs.length + t.stubs.length))
    else
      let eid := searchAddress addr t.extrs
      if eid ≥ 0 then some eid
      else
        match ext.dllFunctionOffset addr with
        | some off => if off > 0 then some (addr - ext.osInit) else none
        | none => none

/-- `SCATable::address_for_id` (SCArchive.cpp:2427-2456).  `none` models the
`fatal` calls; a negative id other than -1 reinterprets as a huge `uint` and
reaches an out-of-bounds C-string access (undefined behaviour), also `none`.
The trailing `return nullptr` is `some 0`. -/
def addressForId (t : AddrTable) (ext : Externals) (idx : Int) : Option Int :=
  if !t.complete then none
  else if idx = -1 then some (-1)
  else if idx < 0 then none
  else
    let id := idx.toNat
    if allMax ≤ id ∧ id < allMax + t.cstrings.length then t.cstrings.get? (id - allMax)
    else if id = t.extrs.length + t.stubs.length + t.blobs.length then none
    else if allMax + t.cstrings.length < id then some (ext.osInit + idx)
    else if id < t.extrs.length then t.extrs.get? id
    else if id - t.extrs.length < t.stubs.length then t.stubs.get? (id - t.extrs.length)
    else if id - t.extrs.length - t.stubs.length < t.blobs.length then
      t.blobs.get? (id - t.extrs.length - t.stubs.length)
    else some 0

/-- The `virtual_call / opt_virtual_call / static_call / runtime_call` case
of `SCAFile::read_relocations` (SCArchive.cpp:808-826): look the stored id
up in the table and patch the destination unless the sentinel comes back.
The second component instruments the model with the list of ids passed to
`address_for_id` during the fix-up; `none` models `fatal`. -/
def fixupCallReloc (t : AddrTable) (ext : Externals) (relocDataJ : Int) (storedDest : Int) :
    Option (Int × List Int) :=
  match addressForId t ext relocDataJ with
  | none => none
  | some dest => some (if dest ≠ -1 then dest else storedDest, [relocDataJ])

/-! ### Proof-side predicates -/

/-- Write-phase sanity: no pending OS failures, not failed, and the cursor
sits at the end of the file (all store-phase writes append). -/
def goodW (s : WState) : Prop :=
  s.osFails = [] ∧ s.failed = false ∧ s.offset = s.file.length

/-- Entry `e` faithfully records the stub request `r` inside file `f`:
right kind/id bookkeeping, and the name/code blocks of `f` at the recorded
offsets hold exactly the stored bytes. -/
def entryFaithfulStub (f : List Nat) (e : SCAEntry) (r : StubReq) : Prop :=
  e.kind = Kind.Stub ∧ e.id = r.id ∧ e.decompile = 0 ∧ e.notEntrant = false ∧
  e.nameSize = r.name.length + 1 ∧ e.codeSize = r.code.length ∧
  headerSize ≤ e.offset ∧
  e.offset + e.nameOffset + e.nameSize ≤ f.length ∧
  e.offset + e.codeOffset + e.codeSize ≤ f.length ∧
  sliceAt f (e.offset + e.nameOffset) e.nameSize = r.name ++ [0] ∧
  sliceAt f (e.offset + e.codeOffset) e.codeSize = r.code

/-- Invariant of the write state after storing exactly the stubs `rs` into a
fresh archive. -/
def stubsInv (s : WState) (rs : List StubReq) : Prop :=
  goodW s ∧ headerSize ≤ s.file.length ∧
  s.cstrings = [] ∧
  s.count = rs.length ∧ s.entries.length = rs.length ∧
  ∀ k (hk : k < rs.length) (hk2 : k < s.entries.length),
    entryFaithfulStub s.file (s.entries.get ⟨k, hk2⟩) (rs.get ⟨k, hk⟩)

/-! ## General lemmas -/

theorem writeAt_append (f bs : List Nat) : writeAt f f.length bs = f ++ bs := by
  simp [writeAt, List.drop_eq_nil_of_le]

theorem writeAt_zero_length (f bs : List Nat) (h : bs.length ≤ f.length) :
    (writeAt f 0 bs).length = f.length := by
  simp [writeAt]
  omega

theorem sliceAt_append_left (f g : List Nat) (a k : Nat) (h : a + k ≤ f.length) :
    sliceAt (f ++ g) a k = sliceAt f a k := by
  unfold sliceAt
  rw [List.drop_append_of_le_length (by omega)]
  have h2 : k ≤ (f.drop a).length := by
    rw [List.length_drop]
    omega
  rw [List.take_append_of_le_length h2]

theorem sliceAt_append_at (f g : List Nat) (k : Nat) : sliceAt (f ++ g) f.length k = g.take k := by
  unfold sliceAt
  rw [List.drop_left]

theorem sliceAt_writeAt_zero (f bs : List Nat) (a k : Nat) (h : bs.length ≤ a) :
    sliceAt (writeAt f 0 bs) a k = sliceAt f a k := by
  unfold sliceAt writeAt
  simp only [List.take_zero, List.nil_append, Nat.zero_add]
  rw [List.drop_append_eq_append_drop]
  have hd : bs.drop a = [] := List.drop_eq_nil_of_le (by omega)
  rw [hd, List.nil_append, List.drop_drop]
  have ha : bs.length + (a - bs.length) = a := by omega
  rw [ha]

theorem strncmpEq_self (n : Nat) (a : List Nat) : strncmpEq a a n = true := by
  induction n generalizing a with
  | zero => rfl
  | succ n ih =>
    unfold strncmpEq
    rw [if_neg (by simp)]
    by_cases h : a.headD 0 = 0
    · rw [if_pos h]
    · rw [if_neg h]
      exact ih a.tail

theorem find?_eq_of_first {α : Type} (p : α → Bool) (l : List α) (i : Nat) (hi : i < l.length)
    (hp : p (l.get ⟨i, hi⟩) = true)
    (hprev : ∀ j (hj : j < i), p (l.get ⟨j, Nat.lt_trans hj hi⟩) = false) :
    l.find? p = some (l.get ⟨i, hi⟩) := by
  induction l generalizing i with
  | nil => exact absurd hi (by simp)
  | cons a l ih =>
    cases i with
    | zero =>
      rw [List.find?_cons_of_pos _ (show p a = true from hp)]
      rfl
    | succ i =>
      have ha : p a = false := hprev 0 (Nat.succ_pos i)
      rw [List.find?_cons_of_neg _ (by simp [ha])]
      have hi' : i < l.length := Nat.lt_of_succ_lt_succ hi
      exact ih i hi' hp (fun j hj => hprev (j + 1) (Nat.succ_lt_succ hj))

theorem writeBytes_good (s : WState) (bs : List Nat) (h : goodW s) :
    writeBytes s bs =
      ({ s with file := s.file ++ bs, offset := s.offset + bs.length }, bs.length) := by
  obtain ⟨h1, h2, h3⟩ := h
  unfold writeBytes
  by_cases hb : bs.length = 0
  · rw [if_pos hb]
    have hbs : bs = [] := List.length_eq_zero.mp hb
    subst hbs
    cases s
    simp
  · rw [if_neg hb]
    cases s
    simp only at h1 h3
    subst h1
    simp [writeAt_append, h3]

theorem goodW_writeBytes (s : WState) (bs : List Nat) (h : goodW s) :
    goodW (writeBytes s bs).1 := by
  rw [writeBytes_good s bs h]
  obtain ⟨h1, h2, h3⟩ := h
  refine ⟨h1, h2, ?_⟩
  simp [h3]

theorem alignWrite_good (s : WState) (h : goodW s) :
    alignWrite s =
      ({ s with file := s.file ++ List.replicate (4 - s.offset % 4) 0,
                offset := s.offset + (4 - s.offset % 4) }, true) := by
  unfold alignWrite
  have hpad : ¬(4 - s.offset % 4 = 0) := by omega
  rw [if_neg hpad, writeBytes_good s _ h]
  simp

theorem entryFaithfulStub_append (f g : List Nat) (e : SCAEntry) (r : StubReq)
    (h : entryFaithfulStub f e r) : entryFaithfulStub (f ++ g) e r := by
  obtain ⟨k1, k2, k3, k4, k5, k6, k7, k8, k9, k10, k11⟩ := h
  refine ⟨k1, k2, k3, k4, k5, k6, k7, ?_, ?_, ?_, ?_⟩
  · simp only [List.length_append]
    omega
  · simp only [List.length_append]
    omega
  · rw [sliceAt_append_left _ _ _ _ k8]
    exact k10
  · rw [sliceAt_append_left _ _ _ _ k9]
    exact k11

end SCArchive

namespace SCArchive

theorem sliceAt_append_eq (f g : List Nat) (a k : Nat) (ha : a = f.length) (hk : k = g.length) :
    sliceAt (f ++ g) a k = g := by
  subst ha
  subst hk
  rw [sliceAt_append_at, List.take_length]

theorem storeStub_step (s : WState) (done : List StubReq) (r : StubReq) (h : stubsInv s done) :
    (storeStub s r).2 = true ∧ stubsInv (storeStub s r).1 (done ++ [r]) := by
  obtain ⟨⟨h1, h2, h3⟩, hhdr, hcstr, hcount, hlen, hfaith⟩ := h
  have hg1 : goodW { s with lookupFailed := false } := ⟨h1, h2, h3⟩
  unfold storeStub
  rw [show forWrite s = true by simp [forWrite, h2]]
  rw [if_neg (by decide)]
  simp only []
  rw [alignWrite_good _ hg1]
  simp only []
  rw [if_neg (by decide)]
  have hgA : goodW (WState.mk
      (s.file ++ List.replicate (4 - s.offset % 4) 0)
      (s.offset + (4 - s.offset % 4))
      s.entries s.count s.version s.cstrings s.failed false s.osFails) := by
    refine ⟨h1, h2, ?_⟩
    simp only [List.length_append, List.length_replicate, List.length_cons, List.length_nil, h3]
    all_goals omega
  rw [writeBytes_good _ _ hgA]
  simp only [List.length_append, List.length_cons, List.length_nil, Nat.zero_add]
  rw [if_neg (by simp)]
  have hgB : goodW (WState.mk
      (s.file ++ List.replicate (4 - s.offset % 4) 0 ++ (r.name ++ [0]))
      (s.offset + (4 - s.offset % 4) + (r.name.length + 1))
      s.entries s.count s.version s.cstrings s.failed false s.osFails) := by
    refine ⟨h1, h2, ?_⟩
    simp only [List.length_append, List.length_replicate, List.length_cons, List.length_nil, h3]
    all_goals omega
  rw [alignWrite_good _ hgB]
  simp only []
  rw [if_neg (by decide)]
  have hgC : goodW (WState.mk
      (s.file ++ List.replicate (4 - s.offset % 4) 0 ++ (r.name ++ [0]) ++
        List.replicate (4 - (s.offset + (4 - s.offset % 4) + (r.name.length + 1)) % 4) 0)
      (s.offset + (4 - s.offset % 4) + (r.name.length + 1) +
        (4 - (s.offset + (4 - s.offset % 4) + (r.name.length + 1)) % 4))
      s.entries s.count s.version s.cstrings s.failed false s.osFails) := by
    refine ⟨h1, h2, ?_⟩
    simp only [List.length_append, List.length_replicate, List.length_cons, List.length_nil, h3]
    all_goals omega
  rw [writeBytes_good _ _ hgC]
  simp only []
  rw [if_neg (by simp)]
  refine ⟨rfl, ⟨h1, h2, ?_⟩, ?_, hcstr, ?_, ?_, ?_⟩
  · simp only [List.length_append, List.length_replicate, List.length_cons, List.length_nil, h3]
    all_goals omega
  · simp only [List.length_append, List.length_replicate, List.length_cons, List.length_nil]
    all_goals omega
  · simp only [List.length_append, List.length_cons, List.length_nil, hcount]
    all_goals omega
  · simp only [List.length_append, List.length_cons, List.length_nil, hlen]
    all_goals omega
  · intro k hk hk2
    simp only [List.get_eq_getElem, List.length_append, List.length_cons, List.length_nil] at hk hk2 ⊢
    by_cases hlt : k < done.length
    · have hlt2 : k < s.entries.length := by omega
      rw [List.getElem_append_left hlt2, List.getElem_append_left hlt]
      have hBig : s.file ++ List.replicate (4 - s.offset % 4) 0 ++ (r.name ++ [0]) ++
            List.replicate (4 - (s.offset + (4 - s.offset % 4) + (r.name.length + 1)) % 4) 0 ++
            r.code =
          s.file ++ (List.replicate (4 - s.offset % 4) 0 ++ ((r.name ++ [0]) ++
            (List.replicate (4 - (s.offset + (4 - s.offset % 4) + (r.name.length + 1)) % 4) 0 ++
            r.code))) := by
        simp [List.append_assoc]
      rw [hBig]
      have hf := hfaith k hlt hlt2
      simp only [List.get_eq_getElem] at hf
      exact entryFaithfulStub_append _ _ _ _ hf
    · have hke : k = done.length := by omega
      subst hke
      have hge1 : s.entries.length ≤ done.length := by omega
      have hge2 : done.length ≤ done.length := le_refl _
      rw [List.getElem_append_right hge1, List.getElem_append_right hge2]
      simp only [hlen, Nat.sub_self, List.getElem_cons_zero]
      refine ⟨rfl, rfl, rfl, rfl, rfl, rfl, ?_, ?_, ?_, ?_, ?_⟩
      · simp only []
        omega
      · simp only [List.length_append, List.length_replicate, List.length_cons, List.length_nil]
        omega
      · simp only [List.length_append, List.length_replicate, List.length_cons, List.length_nil]
        omega
      · have hsplit : s.file ++ List.replicate (4 - s.offset % 4) 0 ++ (r.name ++ [0]) ++
              List.replicate (4 - (s.offset + (4 - s.offset % 4) + (r.name.length + 1)) % 4) 0 ++
              r.code =
            (s.file ++ List.replicate (4 - s.offset % 4) 0) ++ ((r.name ++ [0]) ++
              (List.replicate (4 - (s.offset + (4 - s.offset % 4) + (r.name.length + 1)) % 4) 0 ++
              r.code)) := by
          simp [List.append_assoc]
        rw [hsplit]
        rw [show s.offset + (4 - s.offset % 4) + 0 =
              (s.file ++ List.replicate (4 - s.offset % 4) 0).length from by
            simp only [List.length_append, List.length_replicate]
            omega]
        rw [sliceAt_append_at]
        rw [show r.name.length + 1 = (r.name ++ [0]).length from by simp]
        rw [List.take_left]
      · exact sliceAt_append_eq _ _ _ _ (by
          simp only [List.length_append, List.length_replicate, List.length_cons, List.length_nil]
          omega) rfl

end SCArchive

namespace SCArchive

theorem writeBytes_nonempty (s : WState) (bs : List Nat) (h1 : s.osFails = [])
    (hb : bs.length ≠ 0) :
    writeBytes s bs =
      ({ s with file := writeAt s.file s.offset bs, offset := s.offset + bs.length },
        bs.length) := by
  unfold writeBytes
  rw [if_neg hb]
  simp [h1]

theorem stubsInv_init (ver : Nat) : stubsInv (initW ver []) [] := by
  unfold initW
  simp only []
  rw [writeBytes_good _ _ ⟨rfl, rfl, rfl⟩]
  refine ⟨⟨rfl, rfl, ?_⟩, ?_, rfl, rfl, rfl, ?_⟩
  · simp
  · simp [headerSize]
  · intro k hk hk2
    exact absurd hk (by simp)

theorem stubsInv_storeStubs (rs : List StubReq) (s : WState) (done : List StubReq)
    (h : stubsInv s done) : stubsInv (storeStubs s rs) (done ++ rs) := by
  induction rs generalizing s done with
  | nil => simpa [storeStubs] using h
  | cons r rs ih =>
    have hstep := storeStub_step s done r h
    have hrec := ih (storeStub s r).1 (done ++ [r]) hstep.2
    simpa [storeStubs, List.foldl_cons] using hrec

theorem entryFaithfulStub_writeAt_zero (f bs : List Nat) (e : SCAEntry) (r : StubReq)
    (hb : bs.length ≤ headerSize) (hfl : bs.length ≤ f.length)
    (h : entryFaithfulStub f e r) : entryFaithfulStub (writeAt f 0 bs) e r := by
  obtain ⟨k1, k2, k3, k4, k5, k6, k7, k8, k9, k10, k11⟩ := h
  refine ⟨k1, k2, k3, k4, k5, k6, k7, ?_, ?_, ?_, ?_⟩
  · rw [writeAt_zero_length _ _ hfl]
    exact k8
  · rw [writeAt_zero_length _ _ hfl]
    exact k9
  · rw [sliceAt_writeAt_zero _ _ _ _ (by omega)]
    exact k10
  · rw [sliceAt_writeAt_zero _ _ _ _ (by omega)]
    exact k11

theorem finishWrite_inv (s : WState) (rs : List StubReq) (h : stubsInv s rs) :
    ∃ img : FinalImage,
      finishWrite s = some img ∧
      img.entries = s.entries ∧
      img.header.version = s.version ∧
      img.header.stringsCount = 0 ∧
      headerSize ≤ img.file.length ∧
      (∀ e r, entryFaithfulStub s.file e r → entryFaithfulStub img.file e r) := by
  obtain ⟨⟨h1, h2, h3⟩, hhdr, hcstr, hcount, hlen, hfaith⟩ := h
  simp only [headerSize] at hhdr
  unfold finishWrite
  rw [show forWrite s = true by simp [forWrite, h2]]
  rw [if_neg (by decide)]
  simp only []
  unfold storeStrings
  rw [hcstr]
  rw [if_neg (show ¬(([] : List (List Nat)).length > 0) by decide)]
  simp only []
  rw [if_neg (show ¬((0 : Int) < 0) by decide)]
  by_cases hc : s.entries.length > 0
  · rw [if_pos hc]
    rw [writeBytes_good _ _ ⟨h1, h2, h3⟩]
    simp only [List.length_replicate]
    rw [if_neg (by simp)]
    simp only []
    have hwb := writeBytes_nonempty
      (WState.mk (s.file ++ List.replicate (s.entries.length * entrySize) 0) 0 s.entries s.count
        s.version s.cstrings s.failed s.lookupFailed s.osFails)
      (List.replicate headerSize 0) h1 (by simp [headerSize])
    rw [hwb]
    simp only [List.length_replicate]
    rw [if_neg (by simp)]
    refine ⟨_, rfl, rfl, rfl, rfl, ?_, ?_⟩
    · rw [writeAt_zero_length]
      · simp only [List.length_append, List.length_replicate, headerSize]
        omega
      · simp only [List.length_append, List.length_replicate, headerSize]
        omega
    · intro e r hf
      exact entryFaithfulStub_writeAt_zero _ _ _ _ (by simp [headerSize])
        (by simp only [List.length_append, List.length_replicate, headerSize]; omega)
        (entryFaithfulStub_append _ _ _ _ hf)
  · rw [if_neg hc]
    simp only []
    have hwb := writeBytes_nonempty
      (WState.mk s.file 0 s.entries s.count s.version s.cstrings s.failed s.lookupFailed s.osFails)
      (List.replicate headerSize 0) h1 (by simp [headerSize])
    rw [hwb]
    simp only [List.length_replicate]
    rw [if_neg (by simp)]
    refine ⟨_, rfl, rfl, rfl, rfl, ?_, ?_⟩
    · rw [writeAt_zero_length]
      · exact hhdr
      · simp only [List.length_replicate, headerSize]
        omega
    · intro e r hf
      exact entryFaithfulStub_writeAt_zero _ _ _ _ (by simp [headerSize])
        (by simp only [List.length_replicate, headerSize]; omega) hf

theorem openForRead_ok (v : Nat) (img : FinalImage) (h1 : headerSize ≤ img.file.length)
    (h2 : img.header.stringsCount = 0) :
    openForRead v img =
      { file := img.file, header := img.header, catalog := img.entries,
        offset := headerSize, failed := false } := by
  unfold openForRead
  rw [if_pos ⟨h1, by simp [loadStringsOk, h2]⟩]

theorem loadStub_found (st : RState) (id : Nat) (name code : List Nat) (e : SCAEntry)
    (hfail : st.failed = false)
    (hfind : findEntry st.catalog Kind.Stub id 0 = some e)
    (hbound1 : e.offset + e.nameOffset + e.nameSize ≤ st.file.length)
    (hbound2 : e.offset + e.codeOffset + e.codeSize ≤ st.file.length)
    (hname : sliceAt st.file (e.offset + e.nameOffset) e.nameSize = name ++ [0])
    (hcode : sliceAt st.file (e.offset + e.codeOffset) e.codeSize = code) :
    (loadStub st id name).2 = (true, some code) := by
  unfold loadStub
  rw [hfail]
  rw [if_neg (by simp)]
  rw [hfind]
  simp only []
  unfold readBytesR
  rw [if_pos hbound1]
  simp only [hname]
  rw [if_neg (by simp [strncmpEq_self])]
  rw [if_pos (show _ ≤ _ from hbound2)]
  simp only [hcode]

/-- Claim C1: every stub stored with `store_stub(gen, id, name, start)` into
an archive that is then finalized (`finish_write`) and reopened for load is
returned bit-exactly by `load_stub(gen, id, name, dst)`: the load succeeds
and writes into the caller's buffer exactly the `[start, end)` bytes handed
to `store_stub`.  The hypothesis `hfirst` states that the requested stub is
the first one stored under its id (`find_entry` returns the first match). -/
theorem stub_round_trip (ver : Nat) (rs : List StubReq) (i : Nat) (hi : i < rs.length)
    (hfirst : ∀ j (hj : j < i), (rs.get ⟨j, Nat.lt_trans hj hi⟩).id ≠ (rs.get ⟨i, hi⟩).id) :
    ∃ img : FinalImage,
      finishWrite (storeStubs (initW ver []) rs) = some img ∧
      (loadStub (openForRead ver img) (rs.get ⟨i, hi⟩).id (rs.get ⟨i, hi⟩).name).2 =
        (true, some (rs.get ⟨i, hi⟩).code) := by
  have hinv := stubsInv_storeStubs rs (initW ver []) [] (stubsInv_init ver)
  simp only [List.nil_append] at hinv
  obtain ⟨img, hfw, hent, hver, hsc, hhl, hpres⟩ :=
    finishWrite_inv (storeStubs (initW ver []) rs) rs hinv
  refine ⟨img, hfw, ?_⟩
  rw [openForRead_ok ver img hhl hsc]
  obtain ⟨⟨g1, g2, g3⟩, ghdr, gcstr, gcount, glen, gfaith⟩ := hinv
  have hilen : i < (storeStubs (initW ver []) rs).entries.length := by
    rw [glen]
    exact hi
  have hfi := gfaith i hi hilen
  have hfi2 := hpres _ _ hfi
  obtain ⟨k1, k2, k3, k4, k5, k6, k7, k8, k9, k10, k11⟩ := hfi2
  have hp : entryMatches Kind.Stub (rs.get ⟨i, hi⟩).id 0
      ((storeStubs (initW ver []) rs).entries.get ⟨i, hilen⟩) = true := by
    unfold entryMatches
    rw [k1, k2]
    simp
  have hprev : ∀ j (hj : j < i),
      entryMatches Kind.Stub (rs.get ⟨i, hi⟩).id 0
        ((storeStubs (initW ver []) rs).entries.get ⟨j, Nat.lt_trans hj hilen⟩) = false := by
    intro j hj
    obtain ⟨m1, m2, _⟩ := gfaith j (Nat.lt_trans hj hi) (Nat.lt_trans hj hilen)
    unfold entryMatches
    rw [m1, m2]
    simp
    exact hfirst j hj
  have hfind : findEntry (storeStubs (initW ver []) rs).entries Kind.Stub
      (rs.get ⟨i, hi⟩).id 0 =
      some ((storeStubs (initW ver []) rs).entries.get ⟨i, hilen⟩) :=
    find?_eq_of_first _ _ i hilen hp hprev
  refine loadStub_found _ _ _ _ _ rfl ?_ k8 k9 k10 k11
  show findEntry img.entries Kind.Stub (rs.get ⟨i, hi⟩).id 0 =
    some ((storeStubs (initW ver []) rs).entries.get ⟨i, hilen⟩)
  rw [hent]
  exact hfind

end SCArchive

namespace SCArchive

/-- Witness for C1: two stubs stored, the second (id 9) loads back with
exactly its stored code bytes. -/
theorem stub_round_trip_witness :
    ∃ img : FinalImage,
      finishWrite (storeStubs (initW 1 [])
          [StubReq.mk 7 [109, 117, 108] [222, 173, 190, 239], StubReq.mk 9 [102, 111] [1, 2]]) =
        some img ∧
      (loadStub (openForRead 1 img) 9 [102, 111]).2 = (true, some [1, 2]) :=
  stub_round_trip 1
    [StubReq.mk 7 [109, 117, 108] [222, 173, 190, 239], StubReq.mk 9 [102, 111] [1, 2]]
    1 (by decide)
    (fun j hj => by
      have hj0 : j = 0 := Nat.lt_one_iff.mp hj
      subst hj0
      show (7 : Nat) ≠ 9
      decide)

/-- Claim C2: the decompile count is part of the cache key used by
`find_entry`.  With two `Code` entries stored under the same name-hash `H`,
decompile counts 0 and then 1 (as `store_nmethod` records them),
`find_entry(Code, H, 0)` returns the first entry and `find_entry(Code, H, 1)`
the second (SCArchive.cpp:392-401, the `entry->decompile() != decomp`
skip). -/
theorem find_entry_decompile_key (e0 e1 : SCAEntry) (H : Nat)
    (hk0 : e0.kind = Kind.Code) (hid0 : e0.id = H) (hd0 : e0.decompile = 0)
    (hn0 : e0.notEntrant = false)
    (hk1 : e1.kind = Kind.Code) (hid1 : e1.id = H) (hd1 : e1.decompile = 1)
    (hn1 : e1.notEntrant = false) :
    findEntry [e0, e1] Kind.Code H 0 = some e0 ∧
    findEntry [e0, e1] Kind.Code H 1 = some e1 := by
  constructor
  · unfold findEntry
    rw [List.find?_cons_of_pos]
    unfold entryMatches
    rw [hk0, hid0, hd0, hn0]
    simp
  · unfold findEntry
    rw [List.find?_cons_of_neg]
    · rw [List.find?_cons_of_pos]
      unfold entryMatches
      rw [hk1, hid1, hd1, hn1]
      simp
    · unfold entryMatches
      rw [hk0, hid0, hd0, hn0]
      simp

/-- Witness for C2 at concrete entries with hash 3141. -/
theorem find_entry_decompile_key_witness :
    findEntry [SCAEntry.mk 28 0 4 8 4 16 2 Kind.Code 3141 0 0 false,
               SCAEntry.mk 64 0 4 8 4 16 2 Kind.Code 3141 1 1 false] Kind.Code 3141 0 =
      some (SCAEntry.mk 28 0 4 8 4 16 2 Kind.Code 3141 0 0 false) ∧
    findEntry [SCAEntry.mk 28 0 4 8 4 16 2 Kind.Code 3141 0 0 false,
               SCAEntry.mk 64 0 4 8 4 16 2 Kind.Code 3141 1 1 false] Kind.Code 3141 1 =
      some (SCAEntry.mk 64 0 4 8 4 16 2 Kind.Code 3141 1 1 false) :=
  find_entry_decompile_key _ _ 3141 rfl rfl rfl rfl rfl rfl rfl rfl

set_option maxRecDepth 4000 in
/-- Claim C3 (code bug): the `SCAFile` read constructor checks the header
version only in a debug-build `assert` (SCArchive.cpp:206).  An archive
written under jvm version 1 and opened by a runtime whose version is 2 is
nevertheless established (`failed = false`) and `load_stub` succeeds — the
claimed clean abort with all subsequent loads returning `false` does not
happen. -/
theorem version_mismatch_not_rejected :
    (Option.map (fun img => (img.header.version,
        (openForRead 2 img).failed,
        (loadStub (openForRead 2 img) 7 [109, 117, 108]).2))
      (finishWrite (storeStubs (initW 1 [])
        [StubReq.mk 7 [109, 117, 108] [222, 173, 190, 239]]))) =
      some (1, false, true, some [222, 173, 190, 239]) ∧ (1 : Nat) ≠ 2 := by
  constructor
  · decide
  · decide

/-- Claim C4 (code bug): `align_write` computes
`padding = sizeof(uint) - (_file_offset & 3) ∈ 1..4` and tests
`padding == 0`, which never fires (SCArchive.cpp:321-323).  On the aligned
cursor right after the initial header (offset 24) it therefore writes 4
padding bytes and moves the cursor, instead of being a no-op as the claim
(and the fixed later revision of the same function) states. -/
theorem align_write_pads_aligned_cursor :
    (initW 1 []).offset % 4 = 0 ∧
    (alignWrite (initW 1 [])).1.offset = (initW 1 []).offset + 4 ∧
    (alignWrite (initW 1 [])).1.file.length = (initW 1 []).file.length + 4 ∧
    (alignWrite (initW 1 [])).2 = true := by
  decide

/-- Counterexample for C5: an invalidated `Stub` entry is still returned by
`find_entry` — the not-entrant bit is consulted only for `Code` requests, so
"no subsequent find_entry call ever returns e again" is false as stated. -/
theorem invalidate_stub_still_found :
    findEntry [invalidate (SCAEntry.mk 28 0 4 4 4 0 0 Kind.Stub 7 0 0 false)] Kind.Stub 7 0 =
      some (invalidate (SCAEntry.mk 28 0 4 4 4 0 0 Kind.Stub 7 0 0 false)) := by
  rfl

/-- Claim C5 (amended): `invalidate` sets the not-entrant bit monotonically
(it is never cleared by any operation), and `find_entry` skips not-entrant
entries when the requested kind is `Code`; hence an invalidated `Code` entry
is never returned again.  For `Stub`/`Blob` requests the bit is ignored. -/
theorem invalidate_code_never_returned (entries : List SCAEntry) (i : Nat)
    (hi : i < entries.length) (hkind : (entries.get ⟨i, hi⟩).kind = Kind.Code)
    (id decomp : Nat) :
    (invalidate (entries.get ⟨i, hi⟩)).notEntrant = true ∧
    ∀ e', findEntry (entries.set i (invalidate (entries.get ⟨i, hi⟩))) Kind.Code id decomp =
        some e' → e' ≠ invalidate (entries.get ⟨i, hi⟩) := by
  have hmono : ∀ x : SCAEntry, (invalidate x).notEntrant = true := by
    intro x
    unfold invalidate SCAEntry.setNotEntrant
    by_cases h : x.notEntrant
    · rw [if_pos h]
      exact h
    · rw [if_neg h]
  refine ⟨hmono _, ?_⟩
  intro e' hfind heq
  have hp := List.find?_some hfind
  unfold entryMatches at hp
  rw [heq, hmono] at hp
  simp at hp

/-- Witness for C5 (amended): concrete one-entry `Code` catalog. -/
theorem invalidate_code_never_returned_witness :
    (invalidate ([SCAEntry.mk 28 0 4 8 4 16 2 Kind.Code 3141 0 0 false].get
        ⟨0, by decide⟩)).notEntrant = true ∧
    ∀ e', findEntry ([SCAEntry.mk 28 0 4 8 4 16 2 Kind.Code 3141 0 0 false].set 0
        (invalidate ([SCAEntry.mk 28 0 4 8 4 16 2 Kind.Code 3141 0 0 false].get
          ⟨0, by decide⟩))) Kind.Code 3141 0 = some e' →
      e' ≠ invalidate ([SCAEntry.mk 28 0 4 8 4 16 2 Kind.Code 3141 0 0 false].get
        ⟨0, by decide⟩) :=
  invalidate_code_never_returned [SCAEntry.mk 28 0 4 8 4 16 2 Kind.Code 3141 0 0 false]
    0 (by decide) (by decide) 3141 0

set_option maxRecDepth 4000 in
/-- Counterexample for C7: `load_stub` compares only the first
`name_size - 1` bytes with `strncmp` (SCArchive.cpp:482), so a requested name
that strictly extends the stored name ("abc" vs stored "ab") passes the
check: the load returns `true` and writes the code bytes, although the
stored name bytes differ from the requested name. -/
theorem load_stub_accepts_extended_name :
    (Option.map (fun img => (loadStub (openForRead 1 img) 7 [97, 98, 99]).2)
      (finishWrite (storeStubs (initW 1 []) [StubReq.mk 7 [97, 98] [1, 2, 3, 4]]))) =
      some (true, some [1, 2, 3, 4]) ∧
    ([97, 98, 99] : List Nat) ≠ [97, 98] := by
  constructor
  · decide
  · decide

/-- Claim C7 (amended): when the requested name differs from the stored name
within the first `name_size - 1` bytes (the `strncmp` prefix the code
compares), `load_stub` returns `false`, the archive transitions to Failed,
and no code bytes are written into the destination buffer. -/
theorem load_stub_name_mismatch_fails (st : RState) (id : Nat) (name : List Nat) (e : SCAEntry)
    (hok : st.failed = false)
    (hfind : findEntry st.catalog Kind.Stub id 0 = some e)
    (hbound : e.offset + e.nameOffset + e.nameSize ≤ st.file.length)
    (hneq : strncmpEq (name ++ [0]) (sliceAt st.file (e.offset + e.nameOffset) e.nameSize)
        (e.nameSize - 1) = false) :
    (loadStub st id name).2 = (false, none) ∧ (loadStub st id name).1.failed = true := by
  unfold loadStub
  rw [hok]
  rw [if_neg (by simp)]
  rw [hfind]
  simp only []
  unfold readBytesR
  rw [if_pos hbound]
  simp only []
  rw [hneq]
  simp

/-- Witness for C7 (amended): stored name "ab", requested "xy". -/
theorem load_stub_name_mismatch_fails_witness :
    (loadStub (openForRead 1 (FinalImage.mk
        (List.replicate 28 0 ++ [97, 98, 0] ++ [0] ++ [1, 2, 3, 4])
        (SCAHeader.mk 1 1 36 0 0 28)
        [SCAEntry.mk 28 0 3 4 4 0 0 Kind.Stub 7 0 0 false]))
      7 [120, 121]).2 = (false, none) ∧
    (loadStub (openForRead 1 (FinalImage.mk
        (List.replicate 28 0 ++ [97, 98, 0] ++ [0] ++ [1, 2, 3, 4])
        (SCAHeader.mk 1 1 36 0 0 28)
        [SCAEntry.mk 28 0 3 4 4 0 0 Kind.Stub 7 0 0 false]))
      7 [120, 121]).1.failed = true :=
  load_stub_name_mismatch_fails _ 7 [120, 121]
    (SCAEntry.mk 28 0 3 4 4 0 0 Kind.Stub 7 0 0 false)
    (by decide) (by decide) (by decide) (by decide)

/-- Claim C8: `load_stub` for an id with no matching `Stub` entry returns
`false` before touching the archive state: the archive is not marked Failed
(the state is returned unchanged), so later loads of other entries still
work. -/
theorem load_stub_missing_entry_not_failed (st : RState) (id : Nat) (name : List Nat)
    (hok : st.failed = false) (hmiss : findEntry st.catalog Kind.Stub id 0 = none) :
    loadStub st id name = (st, false, none) := by
  unfold loadStub
  rw [hok]
  rw [if_neg (by simp)]
  rw [hmiss]

/-- Witness for C8: empty archive, id 7 not present. -/
theorem load_stub_missing_entry_not_failed_witness :
    loadStub (openForRead 1 (FinalImage.mk (List.replicate 24 0) (SCAHeader.mk 1 0 24 0 0 24) []))
      7 [109, 117, 108] =
      (openForRead 1 (FinalImage.mk (List.replicate 24 0) (SCAHeader.mk 1 0 24 0 0 24) []),
        false, none) :=
  load_stub_missing_entry_not_failed _ 7 [109, 117, 108] (by decide) (by decide)

/-- Counterexample for C9: at load time the call-relocation fix-up DOES call
`address_for_id` on the stored id, also when that id is the reserved -1: the
instrumented model records the consulted id list `[-1]`, refuting "with no
address_for_id call".  (`address_for_id(-1)` benignly returns the -1
sentinel and the destination is left unpatched.) -/
theorem call_reloc_sentinel_consults_table :
    fixupCallReloc (AddrTable.mk true [100] [200] [300] [400])
      (Externals.mk (fun _ => false) (fun _ => false) (fun _ => none) 0) (-1) (-1) =
      some (-1, [-1]) ∧ ([-1] : List Int) ≠ [] := by
  constructor
  · decide
  · decide

/-- Claim C9 (amended): a call-type relocation whose destination was -1 at
store time is encoded as the reserved id -1 by `id_for_address` (before the
completeness check), and at load time `address_for_id(-1)` returns the -1
sentinel, so `set_destination` is skipped and the stored destination is left
unpatched. -/
theorem call_reloc_sentinel_unpatched (t : AddrTable) (ext : Externals) (d : Int)
    (hc : t.complete = true) :
    idForAddress t ext (-1) = some (-1) ∧
    addressForId t ext (-1) = some (-1) ∧
    fixupCallReloc t ext (-1) d = some (d, [-1]) := by
  have h1 : idForAddress t ext (-1) = some (-1) := by
    unfold idForAddress
    rw [if_pos rfl]
  have h2 : addressForId t ext (-1) = some (-1) := by
    unfold addressForId
    rw [hc]
    rw [if_neg (by decide)]
    rw [if_pos rfl]
  refine ⟨h1, h2, ?_⟩
  unfold fixupCallReloc
  rw [h2]
  simp

/-- Witness for C9 (amended): a concrete complete table, stored dest 42. -/
theorem call_reloc_sentinel_unpatched_witness :
    idForAddress (AddrTable.mk true [100] [200] [300] [400])
      (Externals.mk (fun _ => false) (fun _ => false) (fun _ => none) 0) (-1) = some (-1) ∧
    addressForId (AddrTable.mk true [100] [200] [300] [400])
      (Externals.mk (fun _ => false) (fun _ => false) (fun _ => none) 0) (-1) = some (-1) ∧
    fixupCallReloc (AddrTable.mk true [100] [200] [300] [400])
      (Externals.mk (fun _ => false) (fun _ => false) (fun _ => none) 0) (-1) 42 =
      some (42, [-1]) :=
  call_reloc_sentinel_unpatched _ _ 42 rfl

/-- Claim C10: `find_entry` consults the not-entrant flag only when the
requested kind is `Code`: for any other kind the scan degenerates to a pure
(kind, id) match, so a not-entrant `Stub` or `Blob` entry is still
returned. -/
theorem find_entry_ignores_not_entrant_for_non_code (entries : List SCAEntry) (kind : Kind)
    (id decomp : Nat) (hk : kind ≠ Kind.Code) :
    findEntry entries kind id decomp =
      entries.find? (fun e => e.kind == kind && e.id == id) := by
  unfold findEntry
  congr 1
  funext e
  unfold entryMatches
  have hbc : (kind == Kind.Code) = false := by
    cases kind
    · rfl
    · rfl
    · rfl
    · exact absurd rfl hk
  rw [hbc]
  simp

/-- Witness for C10: a not-entrant `Stub` entry is still found. -/
theorem find_entry_ignores_not_entrant_for_non_code_witness :
    findEntry [SCAEntry.mk 28 0 4 4 4 0 0 Kind.Stub 7 0 0 true] Kind.Stub 7 0 =
      List.find? (fun e => e.kind == Kind.Stub && e.id == 7)
        [SCAEntry.mk 28 0 4 4 4 0 0 Kind.Stub 7 0 0 true] :=
  find_entry_ignores_not_entrant_for_non_code _ Kind.Stub 7 0 (by decide)

end SCArchive

namespace SCArchive

@[simp] theorem writeBytes_entries (s : WState) (bs : List Nat) :
    (writeBytes s bs).1.entries = s.entries := by
  unfold writeBytes
  simp only []
  repeat' split
  all_goals rfl

@[simp] theorem writeBytes_lf (s : WState) (bs : List Nat) :
    (writeBytes s bs).1.lookupFailed = s.lookupFailed := by
  unfold writeBytes
  simp only []
  repeat' split
  all_goals rfl

@[simp] theorem alignWrite_entries (s : WState) :
    (alignWrite s).1.entries = s.entries := by
  unfold alignWrite
  simp only []
  repeat' split
  all_goals simp

@[simp] theorem alignWrite_lf (s : WState) :
    (alignWrite s).1.lookupFailed = s.lookupFailed := by
  unfold alignWrite
  simp only []
  repeat' split
  all_goals simp

@[simp] theorem w4_entries (s : WState) (v : Nat) : (w4 s v).1.entries = s.entries := by
  unfold w4
  simp

@[simp] theorem w4_lf (s : WState) (v : Nat) : (w4 s v).1.lookupFailed = s.lookupFailed := by
  unfold w4
  simp

@[simp] theorem writeKlassData_entries (s : WState) (nm : List Nat) :
    (writeKlassData s nm).1.entries = s.entries := by
  unfold writeKlassData
  simp only []
  repeat' split
  all_goals simp

@[simp] theorem writeKlassData_lf (s : WState) (nm : List Nat) :
    (writeKlassData s nm).1.lookupFailed = s.lookupFailed := by
  unfold writeKlassData
  simp only []
  repeat' split
  all_goals simp

@[simp] theorem writeMethodData_entries (s : WState) (h n sg : List Nat) :
    (writeMethodData s h n sg).1.entries = s.entries := by
  unfold writeMethodData
  simp only []
  repeat' split
  all_goals simp

@[simp] theorem writeMethodData_lf (s : WState) (h n sg : List Nat) :
    (writeMethodData s h n sg).1.lookupFailed = s.lookupFailed := by
  unfold writeMethodData
  simp only []
  repeat' split
  all_goals simp

@[simp] theorem writeOop_entries (s : WState) (v : OopVal) :
    (writeOop s v).1.entries = s.entries := by
  cases v
  all_goals unfold writeOop
  all_goals simp only []
  all_goals repeat' split
  all_goals simp

theorem writeOop_lf_of_true (s : WState) (v : OopVal) (h : (writeOop s v).2 = true) :
    (writeOop s v).1.lookupFailed = s.lookupFailed := by
  cases v
  all_goals unfold writeOop at h
  all_goals unfold writeOop
  all_goals simp only [] at h
  all_goals simp only []
  all_goals repeat' split at h
  all_goals repeat' split
  all_goals simp_all

@[simp] theorem writeOopList_entries (s : WState) (l : List OopVal) :
    (writeOopList s l).1.entries = s.entries := by
  induction l generalizing s with
  | nil => rfl
  | cons o rest ih =>
    unfold writeOopList
    simp only []
    split
    · simp
    · rw [ih]
      simp

theorem writeOopList_lf_of_true (s : WState) (l : List OopVal)
    (h : (writeOopList s l).2 = true) :
    (writeOopList s l).1.lookupFailed = s.lookupFailed := by
  induction l generalizing s with
  | nil => rfl
  | cons o rest ih =>
    unfold writeOopList at h ⊢
    simp only [] at h ⊢
    split at h
    · simp at h
    · rename_i hw
      rw [if_neg hw]
      simp at hw
      rw [ih _ h, writeOop_lf_of_true _ _ hw]

@[simp] theorem writeOops_entries (s : WState) (oops : List OopVal) :
    (writeOops s oops).1.entries = s.entries := by
  unfold writeOops
  simp only []
  split
  · simp
  · simp

theorem writeOops_lf_of_true (s : WState) (oops : List OopVal)
    (h : (writeOops s oops).2 = true) :
    (writeOops s oops).1.lookupFailed = s.lookupFailed := by
  unfold writeOops at h ⊢
  simp only [] at h ⊢
  split at h
  · simp at h
  · rename_i hw
    rw [if_neg hw]
    rw [writeOopList_lf_of_true _ _ h]
    simp

@[simp] theorem writeMetaVal_entries (s : WState) (m : MetaVal) :
    (writeMetaVal s m).1.entries = s.entries := by
  cases m
  all_goals unfold writeMetaVal
  all_goals simp

@[simp] theorem writeMetaVal_lf (s : WState) (m : MetaVal) :
    (writeMetaVal s m).1.lookupFailed = s.lookupFailed := by
  cases m
  all_goals unfold writeMetaVal
  all_goals simp

@[simp] theorem writeMetaList_entries (s : WState) (l : List MetaVal) :
    (writeMetaList s l).1.entries = s.entries := by
  induction l generalizing s with
  | nil => rfl
  | cons m rest ih =>
    unfold writeMetaList
    simp only []
    split
    · simp
    · simp [ih]

@[simp] theorem writeMetaList_lf (s : WState) (l : List MetaVal) :
    (writeMetaList s l).1.lookupFailed = s.lookupFailed := by
  induction l generalizing s with
  | nil => rfl
  | cons m rest ih =>
    unfold writeMetaList
    simp only []
    split
    · simp
    · simp [ih]

@[simp] theorem writeMetadata_entries (s : WState) (ms : List MetaVal) :
    (writeMetadata s ms).1.entries = s.entries := by
  unfold writeMetadata
  simp only []
  split
  · simp
  · simp

@[simp] theorem writeMetadata_lf (s : WState) (ms : List MetaVal) :
    (writeMetadata s ms).1.lookupFailed = s.lookupFailed := by
  unfold writeMetadata
  simp only []
  split
  · simp
  · simp

@[simp] theorem writeDebugInfo_entries (s : WState) (dataB : List Nat) (pcsLength : Nat)
    (pcsB : List Nat) : (writeDebugInfo s dataB pcsLength pcsB).1.entries = s.entries := by
  unfold writeDebugInfo
  simp only []
  repeat' split
  all_goals simp

@[simp] theorem writeDebugInfo_lf (s : WState) (dataB : List Nat) (pcsLength : Nat)
    (pcsB : List Nat) : (writeDebugInfo s dataB pcsLength pcsB).1.lookupFailed = s.lookupFailed := by
  unfold writeDebugInfo
  simp only []
  repeat' split
  all_goals simp

@[simp] theorem writeOopMapList_entries (s : WState) (l : List OopMapItem) :
    (writeOopMapList s l).1.entries = s.entries := by
  induction l generalizing s with
  | nil => rfl
  | cons om rest ih =>
    unfold writeOopMapList
    simp only []
    repeat' split
    all_goals simp [ih]

@[simp] theorem writeOopMapList_lf (s : WState) (l : List OopMapItem) :
    (writeOopMapList s l).1.lookupFailed = s.lookupFailed := by
  induction l generalizing s with
  | nil => rfl
  | cons om rest ih =>
    unfold writeOopMapList
    simp only []
    repeat' split
    all_goals simp [ih]

@[simp] theorem writeOopMaps_entries (s : WState) (maps : List OopMapItem) :
    (writeOopMaps s maps).1.entries = s.entries := by
  unfold writeOopMaps
  simp only []
  split
  · simp
  · simp

@[simp] theorem writeOopMaps_lf (s : WState) (maps : List OopMapItem) :
    (writeOopMaps s maps).1.lookupFailed = s.lookupFailed := by
  unfold writeOopMaps
  simp only []
  split
  · simp
  · simp

@[simp] theorem writeCodeSections_entries (s : WState) (total : Nat) (l : List CodeSec) :
    (writeCodeSections s total l).1.entries = s.entries := by
  induction l generalizing s total with
  | nil => rfl
  | cons cs rest ih =>
    unfold writeCodeSections
    simp only []
    repeat' split
    all_goals simp [ih]

@[simp] theorem writeCodeSections_lf (s : WState) (total : Nat) (l : List CodeSec) :
    (writeCodeSections s total l).1.lookupFailed = s.lookupFailed := by
  induction l generalizing s total with
  | nil => rfl
  | cons cs rest ih =>
    unfold writeCodeSections
    simp only []
    repeat' split
    all_goals simp [ih]

theorem alignWrite_offset_of_true (s : WState) (h : (alignWrite s).2 = true) :
    (alignWrite s).1.offset = s.offset + (4 - s.offset % 4) := by
  have hp : ¬(4 - s.offset % 4 = 0) := by omega
  unfold alignWrite at h ⊢
  simp only [] at h ⊢
  rw [if_neg hp] at h ⊢
  unfold writeBytes at h ⊢
  rw [if_neg (by simp [List.length_replicate]; omega)] at h ⊢
  simp only [] at h ⊢
  split at h
  · simp at h
    omega
  · rename_i hf
    rw [if_neg hf]
    simp [List.length_replicate]

@[simp] theorem writeNmHeader_entries (s : WState) (rq : NmReq) :
    (writeNmHeader s rq).1.entries = s.entries := by
  unfold writeNmHeader
  simp only []
  repeat' split
  all_goals simp

@[simp] theorem writeNmHeader_lf (s : WState) (rq : NmReq) :
    (writeNmHeader s rq).1.lookupFailed = s.lookupFailed := by
  unfold writeNmHeader
  simp only []
  repeat' split
  all_goals simp

@[simp] theorem writeNmBody1_entries (s : WState) (rq : NmReq) :
    (writeNmBody1 s rq).1.entries = s.entries := by
  unfold writeNmBody1
  simp only []
  repeat' split
  all_goals simp

@[simp] theorem writeNmBody1_lf (s : WState) (rq : NmReq) :
    (writeNmBody1 s rq).1.lookupFailed = s.lookupFailed := by
  unfold writeNmBody1
  simp only []
  repeat' split
  all_goals simp

@[simp] theorem writeNmBody2_entries (s : WState) (rq : NmReq) :
    (writeNmBody2 s rq).1.entries = s.entries := by
  unfold writeNmBody2
  simp only []
  repeat' split
  all_goals simp

@[simp] theorem writeNmBody2_lf (s : WState) (rq : NmReq) :
    (writeNmBody2 s rq).1.lookupFailed = s.lookupFailed := by
  unfold writeNmBody2
  simp only []
  repeat' split
  all_goals simp

@[simp] theorem writeRelocImms_entries (s : WState) (l : List RelocVal) :
    (writeRelocImms s l).1.entries = s.entries := by
  induction l generalizing s with
  | nil => rfl
  | cons rv rest ih =>
    cases rv
    all_goals unfold writeRelocImms
    all_goals (try simp only [])
    all_goals repeat' split
    all_goals simp [ih]

@[simp] theorem writeRelocSection_entries (tableId : Int → Int) (s : WState) (sec : RelocSec) :
    (writeRelocSection tableId s sec).1.entries = s.entries := by
  unfold writeRelocSection
  simp only []
  repeat' split
  all_goals simp

@[simp] theorem writeRelocSectionList_entries (tableId : Int → Int) (s : WState)
    (l : List RelocSec) : (writeRelocSectionList tableId s l).1.entries = s.entries := by
  induction l generalizing s with
  | nil => rfl
  | cons sec rest ih =>
    unfold writeRelocSectionList
    simp only []
    repeat' split
    all_goals simp [ih]

@[simp] theorem writeRelocations_entries (tableId : Int → Int) (s : WState)
    (secs : List RelocSec) : (writeRelocations tableId s secs).1.entries = s.entries := by
  unfold writeRelocations
  simp only []
  simp

theorem storeNmethod_cases (tableId : Int → Int) (s0 : WState) (rq : NmReq)
    (hlf0 : s0.lookupFailed = false) :
    (fun r : WState × Bool =>
        r.2 = true ∨
          (r.1.entries = s0.entries ∧
            (r.1.lookupFailed = true ∧ r.1.failed = false →
              r.1.offset = s0.offset + (4 - s0.offset % 4))))
      (storeNmethod tableId s0 rq) := by
  unfold storeNmethod
  lift_lets
  intro a1 entryPosition nameOffset nameSize hash w1 a2 codeOffset hd oo osrc b1 b2 relocOffset wr osrc1 e
  have ha1 : a1 = alignWrite { s0 with lookupFailed := false } := rfl
  have hep : entryPosition = a1.1.offset := rfl
  have hw1 : w1 = writeBytes a1.1 (rq.name ++ [0]) := rfl
  have ha2 : a2 = alignWrite w1.1 := rfl
  have hhd : hd = writeNmHeader a2.1 rq := rfl
  have hoo : oo = writeOops hd.1 rq.oops := rfl
  have hsrc : osrc = oo.1 := rfl
  have hb1 : b1 = writeNmBody1 oo.1 rq := rfl
  have hb2 : b2 = writeNmBody2 b1.1 rq := rfl
  have hwr : wr = writeRelocations tableId b2.1 rq.relocSecs := rfl
  have hsrc1 : osrc1 = wr.1 := rfl
  clear_value a1 entryPosition nameOffset nameSize hash w1 a2 codeOffset hd oo osrc b1 b2 relocOffset wr osrc1 e
  by_cases h1 : (!rq.entryBciIsInvocation) = true
  · rw [if_pos h1]
    exact Or.inr ⟨rfl, fun hc => absurd hc.1 (by simp [hlf0])⟩
  rw [if_neg h1]
  by_cases h2 : (!rq.isC2) = true
  · rw [if_pos h2]
    exact Or.inr ⟨rfl, fun hc => absurd hc.1 (by simp [hlf0])⟩
  rw [if_neg h2]
  by_cases h3 : (!forWrite s0) = true
  · rw [if_pos h3]
    exact Or.inr ⟨rfl, fun hc => absurd hc.1 (by simp [hlf0])⟩
  rw [if_neg h3]
  by_cases h4 : (!a1.2) = true
  · rw [if_pos h4]
    refine Or.inr ⟨by simp [ha1], fun hc => ?_⟩
    have h := hc.1
    simp [ha1] at h
  rw [if_neg h4]
  by_cases h5 : w1.2 ≠ nameSize
  · rw [if_pos h5]
    refine Or.inr ⟨by simp [hw1, ha1], fun hc => ?_⟩
    have h := hc.1
    simp [hw1, ha1] at h
  rw [if_neg h5]
  by_cases h6 : (!a2.2) = true
  · rw [if_pos h6]
    refine Or.inr ⟨by simp [ha2, hw1, ha1], fun hc => ?_⟩
    have h := hc.1
    simp [ha2, hw1, ha1] at h
  rw [if_neg h6]
  by_cases h7 : (!hd.2) = true
  · rw [if_pos h7]
    refine Or.inr ⟨by simp [hhd, ha2, hw1, ha1], fun hc => ?_⟩
    have h := hc.1
    simp [hhd, ha2, hw1, ha1] at h
  rw [if_neg h7]
  by_cases h8 : (!oo.2) = true
  · rw [if_pos h8]
    by_cases h8g : (oo.1.lookupFailed && !oo.1.failed) = true
    · rw [if_pos h8g]
      refine Or.inr ⟨by simp [hsrc, hoo, hhd, ha2, hw1, ha1], fun hc => ?_⟩
      have ha1t : a1.2 = true := by simpa using h4
      rw [ha1] at ha1t
      have hoff := alignWrite_offset_of_true _ ha1t
      simp [hep, ha1, hoff]
    · rw [if_neg h8g]
      refine Or.inr ⟨by simp [hoo, hhd, ha2, hw1, ha1], fun hc => ?_⟩
      have hc1 : oo.1.lookupFailed = true := hc.1
      have hc2 : oo.1.failed = false := hc.2
      exact absurd (by simp [hc1, hc2]) h8g
  rw [if_neg h8]
  have hoot : (writeOops hd.1 rq.oops).2 = true := by rw [← hoo]; simpa using h8
  by_cases h9 : (!b1.2) = true
  · rw [if_pos h9]
    refine Or.inr ⟨by simp [hb1, hoo, hhd, ha2, hw1, ha1], fun hc => ?_⟩
    have h := hc.1
    simp only [hb1] at h
    simp only [writeNmBody1_lf] at h
    rw [hoo, writeOops_lf_of_true _ _ hoot] at h
    simp [hhd, ha2, hw1, ha1] at h
  rw [if_neg h9]
  by_cases h10 : (!b2.2.2) = true
  · rw [if_pos h10]
    refine Or.inr ⟨by simp [hb2, hb1, hoo, hhd, ha2, hw1, ha1], fun hc => ?_⟩
    have h := hc.1
    simp only [hb2] at h
    simp only [writeNmBody2_lf] at h
    simp only [hb1] at h
    simp only [writeNmBody1_lf] at h
    rw [hoo, writeOops_lf_of_true _ _ hoot] at h
    simp [hhd, ha2, hw1, ha1] at h
  rw [if_neg h10]
  by_cases h11 : (!wr.2.2) = true
  · rw [if_pos h11]
    by_cases h11g : (wr.1.lookupFailed && !wr.1.failed) = true
    · rw [if_pos h11g]
      refine Or.inr ⟨by simp [hsrc1, hwr, hb2, hb1, hoo, hhd, ha2, hw1, ha1], fun hc => ?_⟩
      have ha1t : a1.2 = true := by simpa using h4
      rw [ha1] at ha1t
      have hoff := alignWrite_offset_of_true _ ha1t
      simp [hep, ha1, hoff]
    · rw [if_neg h11g]
      refine Or.inr ⟨by simp [hwr, hb2, hb1, hoo, hhd, ha2, hw1, ha1], fun hc => ?_⟩
      have hc1 : wr.1.lookupFailed = true := hc.1
      have hc2 : wr.1.failed = false := hc.2
      exact absurd (by simp [hc1, hc2]) h11g
  rw [if_neg h11]
  exact Or.inl rfl

/-- **C6**: a `store_nmethod` that fails partway through never commits a
partial entry (SCArchive.cpp:1992-1999, 2054-2068): no `SCAEntry` record is
appended to the entry catalog, and when the failure leaves the archive
usable (`_lookup_failed` set, archive not `_failed`) the write cursor is
rewound to the aligned entry-start position. -/
theorem store_nmethod_no_partial_commit (tableId : Int → Int) (s0 : WState) (rq : NmReq)
    (hlf0 : s0.lookupFailed = false)
    (hres : (storeNmethod tableId s0 rq).2 = false) :
    (storeNmethod tableId s0 rq).1.entries = s0.entries ∧
      ((storeNmethod tableId s0 rq).1.lookupFailed = true ∧
          (storeNmethod tableId s0 rq).1.failed = false →
        (storeNmethod tableId s0 rq).1.offset = s0.offset + (4 - s0.offset % 4)) :=
  (storeNmethod_cases tableId s0 rq hlf0).resolve_left (by simp [hres])

set_option maxRecDepth 4000 in
theorem store_nmethod_no_partial_commit_witness :
    (initW 1 []).lookupFailed = false ∧
      (storeNmethod (fun _ => 0) (initW 1 []) nmReqC6).2 = false ∧
      ((storeNmethod (fun _ => 0) (initW 1 []) nmReqC6).1.entries = (initW 1 []).entries ∧
        ((storeNmethod (fun _ => 0) (initW 1 []) nmReqC6).1.lookupFailed = true ∧
            (storeNmethod (fun _ => 0) (initW 1 []) nmReqC6).1.failed = false →
          (storeNmethod (fun _ => 0) (initW 1 []) nmReqC6).1.offset =
            (initW 1 []).offset + (4 - (initW 1 []).offset % 4))) :=
  ⟨by decide, by decide,
    store_nmethod_no_partial_commit (fun _ => 0) (initW 1 []) nmReqC6 (by decide) (by decide)⟩

end SCArchive
